import Mathlib

/-!
# Verification of the web-agentic tool-calling agent loop

A shallow embedding of the repository's core: the LangGraph control loop of
`src/core/graph.py` / `src/agentic/agent.py` (the two files define the same
`should_continue` / `call_tool` / `generate_response` / `run_agent` logic),
the built-in tools of `src/agentic/tools.py`, and the per-turn behaviour of
`src/main.py`.

Modelling decisions:
* The LLM (`llm_with_tools.invoke`) is an external collaborator; it is
  embedded as an oracle function from the prompt (a message list) to the
  returned assistant message (content and tool calls).
* Python's `eval` over the math namespace, used by the `calculate` tool, is
  embedded on the arithmetic fragment as an AST `Expr` together with its
  concrete syntax `exprStr` (the string the source function receives) and an
  evaluator `evalExpr` that fails exactly where `eval` raises
  (`ZeroDivisionError` with text "division by zero" for division by zero,
  `NameError` for an identifier that is not bound in the math namespace).
* The filesystem read by `read_file` is a parameter classifying each path by
  the exception branch the source distinguishes.
* A tool invocation that raises is an `Except.error`; the built-in tools
  never raise (they catch internally and return error strings), so their
  invokers always return `Except.ok`.
-/

namespace WebAgentic

/-- The ASCII apostrophe, used by the source's f-strings when quoting the
argument inside error and mock-result texts. -/
def quote : String := "\x27"

/-- Arithmetic expressions: the fragment of Python expression syntax that
`calculate` passes to `eval` and that the spec's scenarios exercise.
`name` is an identifier, which `eval` resolves in the math namespace;
identifiers outside it raise `NameError`. -/
inductive Expr
  | num (n : Int)
  | name (s : String)
  | add (a b : Expr)
  | sub (a b : Expr)
  | mul (a b : Expr)
  | div (a b : Expr)
deriving DecidableEq, Repr

/-- Concrete (Python) syntax of an expression: the string the source's
`calculate(expression: str)` receives. -/
def exprStr : Expr → String
  | .num n => toString n
  | .name s => s
  | .add a b => exprStr a ++ "+" ++ exprStr b
  | .sub a b => exprStr a ++ "-" ++ exprStr b
  | .mul a b => exprStr a ++ "*" ++ exprStr b
  | .div a b => exprStr a ++ "/" ++ exprStr b

/-- A Python numeric value: an int, or a float (modelled exactly as a
rational; only integral floats are rendered, which covers the embedded
fragment). -/
structure PyNum where
  isFloat : Bool
  val : Rat
deriving DecidableEq, Repr

/-- `str` of a Python numeric result. -/
def pyNumStr (v : PyNum) : String :=
  if v.isFloat then
    if v.val.den = 1 then toString v.val.num ++ ".0" else toString v.val
  else toString v.val.num

/-- Python `eval` on the arithmetic fragment, with the math namespace as the
only bound names. Errors carry `str(e)` of the raised exception:
division by zero raises `ZeroDivisionError("division by zero")`; an unbound
identifier raises `NameError("name '<s>' is not defined")`. `/` is true
division (the result is a float). -/
def evalExpr : Expr → Except String PyNum
  | .num n => Except.ok ⟨false, (n : Rat)⟩
  | .name s => Except.error ("name " ++ quote ++ s ++ quote ++ " is not defined")
  | .add a b => do
      let x ← evalExpr a
      let y ← evalExpr b
      pure ⟨x.isFloat || y.isFloat, x.val + y.val⟩
  | .sub a b => do
      let x ← evalExpr a
      let y ← evalExpr b
      pure ⟨x.isFloat || y.isFloat, x.val - y.val⟩
  | .mul a b => do
      let x ← evalExpr a
      let y ← evalExpr b
      pure ⟨x.isFloat || y.isFloat, x.val * y.val⟩
  | .div a b => do
      let x ← evalExpr a
      let y ← evalExpr b
      if y.val = 0 then Except.error "division by zero"
      else pure ⟨true, x.val / y.val⟩

/-- `calculate` from `src/agentic/tools.py`: evaluate the expression in the
math-only namespace; on success return `str(result)`, on any exception
return the error text `Error calculating '<expr>': <str(e)>`. -/
def calculate (e : Expr) : String :=
  match evalExpr e with
  | Except.ok v => pyNumStr v
  | Except.error msg =>
      "Error calculating " ++ quote ++ exprStr e ++ quote ++ ": " ++ msg

/-- `search` from `src/agentic/tools.py`: the mock result string. -/
def search (query : String) : String :=
  "Search results for " ++ quote ++ query ++ quote ++
    ": [Mock result 1: Information about " ++ query ++ ", Mock result 2: Related content]"

/-- Outcome of opening a path, classifying the exception branches that
`read_file` distinguishes. -/
inductive FSResult
  | ok (content : String)
  | notFound
  | permissionDenied
  | otherError (msg : String)
deriving DecidableEq, Repr

/-- The filesystem visible to `read_file`, as an external collaborator. -/
def FileSystem := String → FSResult

/-- `read_file` from `src/agentic/tools.py`: the file contents, or the typed
error string of the exception branch taken. -/
def read_file (fs : FileSystem) (filepath : String) : String :=
  match fs filepath with
  | FSResult.ok content => content
  | FSResult.notFound =>
      "Error: File " ++ quote ++ filepath ++ quote ++ " not found."
  | FSResult.permissionDenied =>
      "Error: Permission denied reading " ++ quote ++ filepath ++ quote ++ "."
  | FSResult.otherError msg =>
      "Error reading file " ++ quote ++ filepath ++ quote ++ ": " ++ msg

/-- The argument value carried by a tool call (the single string-typed
parameter each built-in tool takes). `arith e` is an argument string that is
arithmetic concrete syntax (`exprStr e`), the shape `calculate` receives;
`raw s` is any other argument string. -/
inductive ArgV
  | raw (s : String)
  | arith (e : Expr)
deriving DecidableEq, Repr

/-- The argument as the plain string the tool receives. -/
def ArgV.text : ArgV → String
  | .raw s => s
  | .arith e => exprStr e

/-- A registered tool: a name and an invoker. The invoker may raise
(`Except.error` carries `str` of the exception); the built-in tools never
do, but tools contributed by the MCP registry path may. -/
structure Tool where
  name : String
  invoke : ArgV → Except String String

/-- The `search` tool object. -/
def searchTool : Tool :=
  ⟨"search", fun a => Except.ok (search a.text)⟩

/-- The `calculate` tool object. An argument that is not arithmetic syntax
is evaluated by `eval` as a bare identifier, hence a `NameError` text. -/
def calculateTool : Tool :=
  ⟨"calculate", fun a =>
    Except.ok (calculate (match a with | ArgV.arith e => e | ArgV.raw s => Expr.name s))⟩

/-- The `read_file` tool object over a given filesystem. -/
def readFileTool (fs : FileSystem) : Tool :=
  ⟨"read_file", fun a => Except.ok (read_file fs a.text)⟩

/-- `TOOLS` from `src/agentic/tools.py`: the three built-ins, in export
order. -/
def TOOLS (fs : FileSystem) : List Tool :=
  [searchTool, calculateTool, readFileTool fs]

/-- A tool invocation request: `tool_call["name"]`, `tool_call["args"]`
(the single argument), `tool_call["id"]`. -/
structure ToolCall where
  name : String
  args : ArgV
  id : String
deriving DecidableEq, Repr

/-- LangChain message roles as a tagged union: `SystemMessage`,
`HumanMessage`, `AIMessage` (content plus tool calls), `ToolMessage`
(content plus the answered call's id). -/
inductive Message
  | system (content : String)
  | human (content : String)
  | ai (content : String) (tool_calls : List ToolCall)
  | tool (content : String) (tool_call_id : String)
deriving DecidableEq, Repr

/-- `isinstance(m, SystemMessage)`. -/
def Message.isSystem : Message → Bool
  | .system _ => true
  | _ => false

/-- `isinstance(m, AIMessage)`. -/
def Message.isAI : Message → Bool
  | .ai _ _ => true
  | _ => false

/-- `isinstance(m, ToolMessage)`. -/
def Message.isToolMsg : Message → Bool
  | .tool _ _ => true
  | _ => false

/-- The `tool_call_id` of a `ToolMessage` (empty for other roles). -/
def Message.toolCallId : Message → String
  | .tool _ i => i
  | _ => ""

/-- An `AIMessage` whose `content` is truthy (non-empty): the predicate
`run_agent`'s extraction loop tests. -/
def isContentfulAI : Message → Bool
  | .ai c _ => c != ""
  | _ => false

/-- `AgentState` from `src/core/state.py` / `src/agentic/agent.py`:
the message log (accumulated by the `add_messages` reducer), the step
counter and the step budget. -/
structure AgentState where
  messages : List Message
  step_count : Nat
  max_steps : Nat
deriving DecidableEq, Repr

/-- The `Literal["call_tool", "end"]` routing result of `should_continue`
(`endRun` is the source's `"end"`). -/
inductive Route
  | call_tool
  | endRun
deriving DecidableEq, Repr

/-- `should_continue`: end when the step counter has reached the budget;
otherwise execute tools iff the last message is an `AIMessage` with a
non-empty `tool_calls` list. (`messages[-1]`: the graph only evaluates this
on a non-empty log, so the default for the empty list is never reached.) -/
def should_continue (state : AgentState) : Route :=
  let last_message := state.messages.getLastD (Message.human "")
  if state.step_count ≥ state.max_steps then Route.endRun
  else
    match last_message with
    | Message.ai _ tool_calls =>
        if tool_calls.isEmpty then Route.endRun else Route.call_tool
    | _ => Route.endRun

/-- The `tools_map` lookup: a dict comprehension over the tools list keeps
the *last* binding for a duplicated name. -/
def lookupTool (tools : List Tool) (name : String) : Option Tool :=
  tools.reverse.find? (fun t => t.name == name)

/-- The body of `call_tool`'s for-loop: for each request in order, resolve
the name in `tools_map`; an unresolved name appends nothing; a resolved tool
is invoked, and an exception propagates out of the whole batch. -/
def execToolCalls (tools : List Tool) : List ToolCall → Except String (List Message)
  | [] => Except.ok []
  | tc :: rest =>
      match lookupTool tools tc.name with
      | some t => do
          let result ← t.invoke tc.args
          let others ← execToolCalls tools rest
          pure (Message.tool result tc.id :: others)
      | none => execToolCalls tools rest

/-- `call_tool`: run the batch for the last message's `tool_calls` (empty
when the last message is not an `AIMessage` with calls) and return the tool
messages to append together with `step_count + 1`. -/
def call_tool (tools : List Tool) (state : AgentState) :
    Except String (List Message × Nat) :=
  let last_message := state.messages.getLastD (Message.human "")
  match last_message with
  | Message.ai _ tool_calls => do
      let tool_messages ← execToolCalls tools tool_calls
      pure (tool_messages, state.step_count + 1)
  | _ => Except.ok ([], state.step_count + 1)

/-- The model collaborator (`llm_with_tools.invoke`): from the prompt, the
returned `AIMessage`'s content and tool calls. -/
abbrev Oracle := List Message → String × List ToolCall

/-- The local prompt construction in `generate_response`: prepend the system
prompt iff no `SystemMessage` is present anywhere in the log. -/
def injectSystem (system_prompt : String) (messages : List Message) : List Message :=
  if messages.any Message.isSystem then messages
  else Message.system system_prompt :: messages

/-- `generate_response`: invoke the model on the locally system-prefixed
prompt; the node's update appends only the response and leaves the step
counter unchanged. -/
def generate_response (oracle : Oracle) (system_prompt : String)
    (state : AgentState) : List Message × Nat :=
  let prompt := injectSystem system_prompt state.messages
  let response := oracle prompt
  ([Message.ai response.1 response.2], state.step_count)

/-- A compiled agent (`create_agent`'s closure): the bound tool list, the
model, and the system prompt text (opaque to the loop; `graph.py` builds it
from `get_system_prompt(tools)`, `agentic/agent.py` uses the constant). -/
structure Agent where
  tools : List Tool
  oracle : Oracle
  system_prompt : String

/-- The state after the `generate` node's update has gone through the
reducers: the response appended to the log (`add_messages`), the step
counter replaced by the returned (unchanged) value. -/
def afterGenerate (agent : Agent) (state : AgentState) : AgentState :=
  ⟨state.messages ++ (generate_response agent.oracle agent.system_prompt state).1,
   (generate_response agent.oracle agent.system_prompt state).2,
   state.max_steps⟩

/-- The compiled graph's `invoke`: entry node `generate`, then the
conditional edge `should_continue`; the `tool` node loops back to
`generate`. Node updates go through the `add_messages` reducer (append) and
replace the step counter. An exception from a tool invocation propagates
out of the run. -/
def runLoop (agent : Agent) (state : AgentState) : Except String AgentState :=
  match hroute : should_continue (afterGenerate agent state) with
  | Route.endRun => Except.ok (afterGenerate agent state)
  | Route.call_tool =>
      match hcall : call_tool agent.tools (afterGenerate agent state) with
      | Except.error e => Except.error e
      | Except.ok (tool_messages, sc) =>
          runLoop agent
            ⟨(afterGenerate agent state).messages ++ tool_messages, sc,
             (afterGenerate agent state).max_steps⟩
termination_by state.max_steps - state.step_count
decreasing_by
  have h1 : (afterGenerate agent state).step_count < (afterGenerate agent state).max_steps := by
    by_contra hge
    have hle : (afterGenerate agent state).max_steps ≤ (afterGenerate agent state).step_count :=
      Nat.le_of_not_lt hge
    simp only [should_continue, ge_iff_le, hle, if_true] at hroute
    exact Route.noConfusion hroute
  have h2 : sc = (afterGenerate agent state).step_count + 1 := by
    simp only [call_tool, bind, Except.bind, pure, Except.pure] at hcall
    split at hcall
    · split at hcall
      · exact Except.noConfusion hcall
      · simp only [Except.ok.injEq, Prod.mk.injEq] at hcall
        exact hcall.2.symm
    · simp only [Except.ok.injEq, Prod.mk.injEq] at hcall
      exact hcall.2.symm
  simp only [afterGenerate, generate_response] at h1 h2 ⊢
  omega

/-- The response-extraction loop at the end of `run_agent`: the content of
the last `AIMessage` whose content is truthy, else the sentinel. -/
def finalResponse (msgs : List Message) : String :=
  match msgs.reverse.find? isContentfulAI with
  | some (Message.ai c _) => c
  | _ => "No response generated."

/-- `run_agent`: append the user message to the prior history, run the graph
from step 0, and return the extracted response together with the full
updated message list. -/
def run_agent (agent : Agent) (user_input : String)
    (previous_messages : List Message) (max_steps : Nat) :
    Except String (String × List Message) :=
  let messages := previous_messages ++ [Message.human user_input]
  match runLoop agent ⟨messages, 0, max_steps⟩ with
  | Except.error e => Except.error e
  | Except.ok final_state =>
      Except.ok (finalResponse final_state.messages, final_state.messages)

/-- Number of `SystemMessage`s in a log. -/
def countSystem (msgs : List Message) : Nat :=
  (msgs.filter Message.isSystem).length

/-- Number of `AIMessage`s in a log. Every model call appends exactly one
`AIMessage` and nothing else appends one, so across a run this counts the
model calls issued. -/
def countAI (msgs : List Message) : Nat :=
  (msgs.filter Message.isAI).length

/-- Whether a request id is answered by some `ToolMessage` in a list. -/
def answeredIn (id : String) (later : List Message) : Bool :=
  later.any (fun m => m.isToolMsg && (m.toolCallId == id))

/-- The final answer as the spec describes it: the content of the *last*
Assistant message that carries non-empty text and whose tool calls are all
resolved by later ToolResult messages; `none` when no such message exists.
This is the spec-side description, to be compared with the source's
`finalResponse`. -/
def specFinalAnswer : List Message → Option String
  | [] => none
  | m :: rest =>
      match specFinalAnswer rest with
      | some r => some r
      | none =>
          match m with
          | Message.ai c tcs =>
              if c != "" && tcs.all (fun tc => answeredIn tc.id rest) then some c
              else none
          | _ => none

/-- The value `main.py` hands to `print` as the agent output of a turn:
either a bare string, or a Python tuple of the response and the message
list. -/
inductive PrintArg
  | text (s : String)
  | tup (response : String) (messages : List Message)
deriving DecidableEq, Repr

/-- Whether the printed value is the (response, messages) tuple rather than
a bare string. -/
def PrintArg.isPair : PrintArg → Bool
  | .tup _ _ => true
  | .text _ => false

/-- The per-turn agent output in `main.py`:
`response = run_agent(agent, user_input, max_steps=10)` binds the entire
pair returned by `run_agent` — the source never unpacks it — and
`print(response)` then receives that pair. -/
def mainPrintArg (agent : Agent) (user_input : String) : Except String PrintArg :=
  match run_agent agent user_input [] 10 with
  | Except.error e => Except.error e
  | Except.ok p => Except.ok (PrintArg.tup p.1 p.2)

/-! ### Concrete collaborator stubs for the spec's scenarios -/

/-- A filesystem on which every path is missing. -/
def emptyFS : FileSystem := fun _ => FSResult.notFound

/-- A model stub that always answers with plain text. -/
def helloAgent : Agent := ⟨[], fun _ => ("Hello!", []), "prompt"⟩

/-- A tool request for a name no registry entry carries. -/
def tcUnknown : ToolCall := ⟨"wikipedia", ArgV.raw "x", "call1"⟩

/-- A trivially succeeding tool. -/
def tTool : Tool := ⟨"t", fun _ => Except.ok "r"⟩

/-- A request for the trivially succeeding tool. -/
def tcT : ToolCall := ⟨"t", ArgV.raw "", "b"⟩

/-- A tool whose invoker raises, as an MCP-contributed registry entry may. -/
def boomTool : Tool := ⟨"boom", fun _ => Except.error "RuntimeError: boom"⟩

/-- A request for the raising tool. -/
def tcBoom : ToolCall := ⟨"boom", ArgV.raw "", "b1"⟩

/-- A model stub that first requests `search("x")` and, once a tool result
is visible, requests `search("y")` — always with accompanying text, so its
final (budget-cut) response carries both text and a pending tool call. -/
def twoPhaseOracle : Oracle := fun msgs =>
  if msgs.any Message.isToolMsg then
    ("Checking again", [⟨"search", ArgV.raw "y", "2"⟩])
  else
    ("Thinking", [⟨"search", ArgV.raw "x", "1"⟩])

/-- The two-phase model stub bound to the built-in tools. -/
def twoPhaseAgent : Agent := ⟨TOOLS emptyFS, twoPhaseOracle, "prompt"⟩

/-- The message log produced by `run_agent twoPhaseAgent "hi" [] 1`. -/
def twoPhaseTrace : List Message :=
  [Message.human "hi",
   Message.ai "Thinking" [⟨"search", ArgV.raw "x", "1"⟩],
   Message.tool (search "x") "1",
   Message.ai "Checking again" [⟨"search", ArgV.raw "y", "2"⟩]]

/-- A model stub that always requests one call to the trivial tool. -/
def loopAgent : Agent := ⟨[tTool], fun _ => ("", [⟨"t", ArgV.raw "", "i"⟩]), "prompt"⟩

/-- A model stub for a conversation that already carries a System message. -/
def sysAgent : Agent := ⟨[], fun _ => ("ok", []), "prompt"⟩

/-- The model stub of the spec's partial-failure scenario: one round
requesting `calculate("1/0")` and `search("x")`, then a final answer. -/
def partialFailureOracle : Oracle := fun msgs =>
  if msgs.any Message.isToolMsg then ("The calculation failed.", [])
  else ("", [⟨"calculate", ArgV.arith (Expr.div (Expr.num 1) (Expr.num 0)), "c1"⟩,
             ⟨"search", ArgV.raw "x", "c2"⟩])

/-- The partial-failure model stub bound to the built-in tools. -/
def partialFailureAgent : Agent := ⟨TOOLS emptyFS, partialFailureOracle, "prompt"⟩

/-! ### Helper lemmas about the loop -/

theorem should_continue_lt {s : AgentState}
    (h : should_continue s = Route.call_tool) : s.step_count < s.max_steps := by
  by_contra hge
  have hle : s.max_steps ≤ s.step_count := Nat.le_of_not_lt hge
  simp only [should_continue, ge_iff_le, hle, if_true] at h
  exact Route.noConfusion h

theorem call_tool_step_eq {tools : List Tool} {s : AgentState}
    {msgs : List Message} {sc : Nat}
    (h : call_tool tools s = Except.ok (msgs, sc)) : sc = s.step_count + 1 := by
  simp only [call_tool, bind, Except.bind, pure, Except.pure] at h
  split at h
  · split at h
    · exact Except.noConfusion h
    · simp only [Except.ok.injEq, Prod.mk.injEq] at h
      exact h.2.symm
  · simp only [Except.ok.injEq, Prod.mk.injEq] at h
    exact h.2.symm

theorem afterGenerate_step_count (agent : Agent) (state : AgentState) :
    (afterGenerate agent state).step_count = state.step_count := rfl

theorem afterGenerate_max_steps (agent : Agent) (state : AgentState) :
    (afterGenerate agent state).max_steps = state.max_steps := rfl

theorem should_continue_of_ge {s : AgentState} (h : s.max_steps ≤ s.step_count) :
    should_continue s = Route.endRun := by
  simp [should_continue, h]

theorem afterGenerate_messages (agent : Agent) (state : AgentState) :
    (afterGenerate agent state).messages =
      state.messages ++
        [Message.ai (agent.oracle (injectSystem agent.system_prompt state.messages)).1
                    (agent.oracle (injectSystem agent.system_prompt state.messages)).2] := rfl

theorem runLoop_eq_end (agent : Agent) (state : AgentState)
    (h : should_continue (afterGenerate agent state) = Route.endRun) :
    runLoop agent state = Except.ok (afterGenerate agent state) := by
  unfold runLoop
  split
  · rfl
  · rename_i hroute
    rw [h] at hroute
    exact Route.noConfusion hroute

theorem runLoop_eq_err (agent : Agent) (state : AgentState) {e : String}
    (h : should_continue (afterGenerate agent state) = Route.call_tool)
    (hc : call_tool agent.tools (afterGenerate agent state) = Except.error e) :
    runLoop agent state = Except.error e := by
  unfold runLoop
  split
  · rename_i hroute
    rw [h] at hroute
    exact Route.noConfusion hroute
  · split
    · rename_i e' hcall
      rw [hc] at hcall
      injection hcall with he
      rw [he]
    · rename_i tms' sc' hcall
      rw [hc] at hcall
      exact Except.noConfusion hcall

theorem runLoop_eq_tool (agent : Agent) (state : AgentState)
    {tms : List Message} {sc : Nat}
    (h : should_continue (afterGenerate agent state) = Route.call_tool)
    (hc : call_tool agent.tools (afterGenerate agent state) = Except.ok (tms, sc)) :
    runLoop agent state =
      runLoop agent
        ⟨(afterGenerate agent state).messages ++ tms, sc,
         (afterGenerate agent state).max_steps⟩ := by
  conv_lhs => rw [runLoop.eq_def]
  split
  · rename_i hroute
    rw [h] at hroute
    exact Route.noConfusion hroute
  · split
    · rename_i e' hcall
      rw [hc] at hcall
      exact Except.noConfusion hcall
    · rename_i tms' sc' hcall
      rw [hc] at hcall
      injection hcall with hp
      injection hp with h1 h2
      rw [h1, h2]

/-- Every run with the budget already met or exceeded at entry performs the
single `generate` and stops: no tool execution, one appended response. -/
theorem runLoop_exhausted (agent : Agent) (state : AgentState)
    (h : state.max_steps ≤ state.step_count) :
    ∃ c tcs, runLoop agent state =
      Except.ok ⟨state.messages ++ [Message.ai c tcs], state.step_count,
                 state.max_steps⟩ := by
  have hend : should_continue (afterGenerate agent state) = Route.endRun := by
    apply should_continue_of_ge
    rw [afterGenerate_step_count, afterGenerate_max_steps]
    exact h
  refine ⟨(agent.oracle (injectSystem agent.system_prompt state.messages)).1,
          (agent.oracle (injectSystem agent.system_prompt state.messages)).2, ?_⟩
  rw [runLoop_eq_end _ _ hend]
  rfl

theorem execToolCalls_ok_shape {tools : List Tool} :
    ∀ {tcs : List ToolCall} {msgs : List Message},
      execToolCalls tools tcs = Except.ok msgs →
      msgs.map Message.toolCallId =
        ((tcs.filter (fun tc => (lookupTool tools tc.name).isSome)).map ToolCall.id) ∧
      msgs.all Message.isToolMsg = true := by
  intro tcs
  induction tcs with
  | nil =>
      intro msgs h
      simp only [execToolCalls, Except.ok.injEq] at h
      subst h
      simp
  | cons tc rest ih =>
      intro msgs h
      simp only [execToolCalls] at h
      revert h
      cases hl : lookupTool tools tc.name with
      | none =>
          intro h
          have := ih h
          simpa [hl] using this
      | some t =>
          simp only [bind, Except.bind]
          cases hi : t.invoke tc.args with
          | error e => intro h; exact Except.noConfusion h
          | ok r =>
              cases he : execToolCalls tools rest with
              | error e => intro h; exact Except.noConfusion h
              | ok others =>
                  intro h
                  simp only [pure, Except.pure, Except.ok.injEq] at h
                  subst h
                  have := ih he
                  simp [hl, Message.toolCallId, Message.isToolMsg, this.1, this.2]

theorem call_tool_msgs_tool {tools : List Tool} {s : AgentState}
    {tms : List Message} {sc : Nat}
    (h : call_tool tools s = Except.ok (tms, sc)) :
    tms.all Message.isToolMsg = true := by
  simp only [call_tool, bind, Except.bind, pure, Except.pure] at h
  split at h
  · split at h
    · exact Except.noConfusion h
    · rename_i l he
      simp only [Except.ok.injEq, Prod.mk.injEq] at h
      rw [← h.1]
      exact (execToolCalls_ok_shape he).2
  · simp only [Except.ok.injEq, Prod.mk.injEq] at h
    rw [← h.1]
    rfl

theorem all_tool_weaken {l : List Message}
    (h : l.all Message.isToolMsg = true) :
    l.all (fun m => m.isAI || m.isToolMsg) = true := by
  rw [List.all_eq_true] at h ⊢
  intro x hx
  simp [h x hx]

theorem all_aiTool_filter_system {l : List Message}
    (h : l.all (fun m => m.isAI || m.isToolMsg) = true) :
    l.filter Message.isSystem = [] := by
  induction l with
  | nil => rfl
  | cons m rest ih =>
      simp only [List.all_cons, Bool.and_eq_true] at h
      have hm : Message.isSystem m = false := by
        cases m <;> simp_all [Message.isAI, Message.isToolMsg, Message.isSystem]
      simp [List.filter_cons, hm, ih h.2]

/-- The master trace invariant: a successful run appends only Assistant and
ToolResult messages, keeps the budget field, and — when the counter starts
within the budget — ends with the counter within the budget. -/
theorem runLoop_trace (agent : Agent) :
    ∀ (n : Nat) (state final : AgentState),
      state.max_steps - state.step_count ≤ n →
      runLoop agent state = Except.ok final →
      (∃ suffix, final.messages = state.messages ++ suffix ∧
          suffix.all (fun m => m.isAI || m.isToolMsg) = true) ∧
      final.max_steps = state.max_steps ∧
      (state.step_count ≤ state.max_steps → final.step_count ≤ state.max_steps) := by
  intro n
  induction n with
  | zero =>
      intro state final hn h
      have hge : state.max_steps ≤ state.step_count := by omega
      have hend : should_continue (afterGenerate agent state) = Route.endRun := by
        apply should_continue_of_ge
        rw [afterGenerate_step_count, afterGenerate_max_steps]
        exact hge
      rw [runLoop_eq_end _ _ hend] at h
      injection h with hf
      subst hf
      refine ⟨⟨_, afterGenerate_messages agent state, by simp [Message.isAI]⟩, rfl, ?_⟩
      intro hle
      rw [afterGenerate_step_count]
      omega
  | succ n ih =>
      intro state final hn h
      cases hroute : should_continue (afterGenerate agent state) with
      | endRun =>
          rw [runLoop_eq_end _ _ hroute] at h
          injection h with hf
          subst hf
          refine ⟨⟨_, afterGenerate_messages agent state, by simp [Message.isAI]⟩, rfl, ?_⟩
          intro hle
          rw [afterGenerate_step_count]
          omega
      | call_tool =>
          have hlt := should_continue_lt hroute
          rw [afterGenerate_step_count, afterGenerate_max_steps] at hlt
          cases hcall : call_tool agent.tools (afterGenerate agent state) with
          | error e =>
              rw [runLoop_eq_err _ _ hroute hcall] at h
              exact Except.noConfusion h
          | ok p =>
              obtain ⟨tms, sc⟩ := p
              have hsc := call_tool_step_eq hcall
              rw [afterGenerate_step_count] at hsc
              rw [runLoop_eq_tool _ _ hroute hcall] at h
              have hm : ((⟨(afterGenerate agent state).messages ++ tms, sc,
                          (afterGenerate agent state).max_steps⟩ : AgentState)).max_steps -
                        ((⟨(afterGenerate agent state).messages ++ tms, sc,
                          (afterGenerate agent state).max_steps⟩ : AgentState)).step_count
                          ≤ n := by
                dsimp only
                rw [afterGenerate_max_steps]
                omega
              obtain ⟨⟨suffix, hsfx, hall⟩, hmax, hstep⟩ := ih _ final hm h
              dsimp only at hsfx hmax hstep
              rw [afterGenerate_max_steps] at hmax
              rw [afterGenerate_messages] at hsfx
              refine ⟨⟨[Message.ai
                          (agent.oracle (injectSystem agent.system_prompt state.messages)).1
                          (agent.oracle (injectSystem agent.system_prompt state.messages)).2]
                        ++ tms ++ suffix, ?_, ?_⟩, hmax, ?_⟩
              · rw [hsfx]
                simp
              · simp only [List.all_append, Bool.and_eq_true]
                exact ⟨⟨by simp [Message.isAI],
                        all_tool_weaken (call_tool_msgs_tool hcall)⟩, hall⟩
              · intro hle
                rw [afterGenerate_max_steps] at hstep
                have := hstep (by omega)
                omega

/-- A successful `run_agent` leaves the System messages of the log exactly
the System messages of the supplied history. -/
theorem run_agent_system_filter {agent : Agent} {input : String}
    {prev : List Message} {B : Nat} {r : String × List Message}
    (h : run_agent agent input prev B = Except.ok r) :
    r.2.filter Message.isSystem = prev.filter Message.isSystem := by
  simp only [run_agent] at h
  revert h
  cases hr : runLoop agent ⟨prev ++ [Message.human input], 0, B⟩ with
  | error e => intro h; exact Except.noConfusion h
  | ok final =>
      intro h
      injection h with hp
      subst hp
      obtain ⟨⟨suffix, hsfx, hall⟩, -, -⟩ := runLoop_trace agent B _ final (by simp) hr
      simp only [hsfx]
      simp [List.filter_append, all_aiTool_filter_system hall, Message.isSystem]

/-- Reduce a concrete `run_agent` computation to a `runLoop` equation. -/
theorem run_agent_of_runLoop {agent : Agent} {input : String}
    {prev : List Message} {B : Nat} {fs : AgentState}
    (h : runLoop agent ⟨prev ++ [Message.human input], 0, B⟩ = Except.ok fs) :
    run_agent agent input prev B =
      Except.ok (finalResponse fs.messages, fs.messages) := by
  simp only [run_agent]
  rw [h]

/-! ### Claims -/

/-- C1, counterexample: with `max_steps = 0` and a model stub answering
"Hello!", the run returns "Hello!" — not the sentinel — and the final log
carries one `AIMessage` where the input carried none, i.e. one model call
was issued. The graph's entry node is the model call; the budget check runs
only afterwards, so a zero budget does not suppress the first call. -/
theorem c1_zero_budget_counterexample :
    run_agent helloAgent "hi" [] 0 =
        Except.ok ("Hello!", [Message.human "hi", Message.ai "Hello!" []]) ∧
    countAI [Message.human "hi", Message.ai "Hello!" []] = 1 ∧
    (("Hello!" == "No response generated.") = false) := by
  refine ⟨?_, rfl, rfl⟩
  exact run_agent_of_runLoop
    (runLoop_eq_end helloAgent ⟨[] ++ [Message.human "hi"], 0, 0⟩ rfl)

/-- C1, amended: a run with step budget 0 issues exactly one model call and
then terminates without executing any tool calls; the returned log is the
input plus the single model response, and the returned value is the final
log's response extraction (the sentinel only when no message qualifies). -/
theorem c1_zero_budget_amended (agent : Agent) (input : String)
    (prev : List Message) :
    ∃ c tcs, run_agent agent input prev 0 =
      Except.ok (finalResponse (prev ++ [Message.human input, Message.ai c tcs]),
                 prev ++ [Message.human input, Message.ai c tcs]) := by
  obtain ⟨c, tcs, h⟩ :=
    runLoop_exhausted agent ⟨prev ++ [Message.human input], 0, 0⟩ (Nat.le_refl 0)
  refine ⟨c, tcs, ?_⟩
  simp only [run_agent]
  rw [h]
  simp

/-- C2, counterexample: a round whose only request names the unregistered
tool "wikipedia" produces no `ToolMessage` at all — the pending request
`call1` is left unanswered, with no ToolResult communicating the lookup
failure. -/
theorem c2_missing_tool_counterexample :
    call_tool (TOOLS emptyFS)
      ⟨[Message.human "q", Message.ai "" [tcUnknown]], 0, 10⟩ =
      Except.ok ([], 1) := rfl

/-- C2, amended: a request whose tool name does not resolve is skipped
silently — no ToolResult is produced for it — while the resolved sibling
requests are still answered, one ToolResult each, in request order; the
missing tool does not abort the batch. -/
theorem c2_missing_tool_amended (tools : List Tool) (tcs : List ToolCall)
    (msgs : List Message) (h : execToolCalls tools tcs = Except.ok msgs) :
    msgs.map Message.toolCallId =
      ((tcs.filter (fun tc => (lookupTool tools tc.name).isSome)).map ToolCall.id) ∧
    msgs.all Message.isToolMsg = true :=
  execToolCalls_ok_shape h

/-- C2, witness: a batch of an unresolvable request then a resolvable one
yields exactly one ToolResult, answering the resolvable request. -/
theorem c2_missing_tool_witness :
    ([Message.tool "r" "b"] : List Message).map Message.toolCallId =
      (([tcUnknown, tcT].filter
          (fun tc => (lookupTool [tTool] tc.name).isSome)).map ToolCall.id) ∧
    ([Message.tool "r" "b"] : List Message).all Message.isToolMsg = true :=
  c2_missing_tool_amended [tTool] [tcUnknown, tcT] [Message.tool "r" "b"] rfl

/-- C3, counterexample: a budget-cut run whose final Assistant message
carries both text and a pending (unanswered) tool call returns that
message's content "Checking again", while the last Assistant message with
text and no unresolved calls carries "Thinking" — so the extraction does
select a message with pending tool calls. -/
theorem c3_final_answer_counterexample :
    run_agent twoPhaseAgent "hi" [] 1 = Except.ok ("Checking again", twoPhaseTrace) ∧
    specFinalAnswer twoPhaseTrace = some "Thinking" ∧
    (("Checking again" == "Thinking") = false) := by
  refine ⟨?_, rfl, rfl⟩
  exact run_agent_of_runLoop
    ((runLoop_eq_tool twoPhaseAgent ⟨[] ++ [Message.human "hi"], 0, 1⟩ (by rfl) (by rfl)).trans
     (runLoop_eq_end twoPhaseAgent
       ⟨[Message.human "hi",
         Message.ai "Thinking" [⟨"search", ArgV.raw "x", "1"⟩],
         Message.tool (search "x") "1"], 1, 1⟩ rfl))

/-- C3, amended: the returned value is the content of the last Assistant
message with non-empty text, regardless of whether that message also
carries (possibly unresolved) tool calls; the sentinel is returned exactly
when no Assistant message has non-empty content. -/
theorem c3_final_answer_amended :
    (∀ (msgs : List Message) (c : String) (tcs : List ToolCall),
        (c == "") = false → finalResponse (msgs ++ [Message.ai c tcs]) = c) ∧
    (∀ msgs : List Message, (∀ m ∈ msgs, isContentfulAI m = false) →
        finalResponse msgs = "No response generated.") := by
  constructor
  · intro msgs c tcs h
    have hpos : isContentfulAI (Message.ai c tcs) = true := by
      simp [isContentfulAI, bne, h]
    simp only [finalResponse, List.reverse_append, List.reverse_cons,
      List.reverse_nil, List.nil_append, List.singleton_append]
    rw [List.find?_cons_of_pos _ hpos]
  · intro msgs h
    have hnone : msgs.reverse.find? isContentfulAI = none := by
      rw [List.find?_eq_none]
      intro x hx
      have hx2 := h x (List.mem_reverse.mp hx)
      simp [hx2]
    simp [finalResponse, hnone]

/-- C3, witness: a trailing Assistant message with text and tool calls is
selected; a log with no contentful Assistant message yields the sentinel. -/
theorem c3_final_answer_witness :
    finalResponse ([Message.human "q"] ++ [Message.ai "x" [tcUnknown]]) = "x" ∧
    finalResponse [Message.human "q"] = "No response generated." :=
  ⟨c3_final_answer_amended.1 [Message.human "q"] "x" [tcUnknown] rfl,
   c3_final_answer_amended.2 [Message.human "q"] (by decide)⟩

/-- C4, counterexample: a round requesting the raising tool and then the
succeeding tool aborts with the raised error — the exception propagates out
of the batch; no ToolResult carries the failure text, and the sibling
request is left unanswered. -/
theorem c4_tool_failure_counterexample :
    call_tool [boomTool, tTool] ⟨[Message.ai "" [tcBoom, tcT]], 0, 10⟩ =
      Except.error "RuntimeError: boom" := rfl

/-- C4, amended: the Turn Executor does not capture invocation failures —
a resolved tool whose invoker raises propagates the exception out of the
batch (aborting the round). Only the built-in tools never raise: each
catches its own errors internally and returns an error string. -/
theorem c4_tool_failure_amended :
    (∀ (tools : List Tool) (tc : ToolCall) (rest : List ToolCall)
        (t : Tool) (e : String),
        lookupTool tools tc.name = some t →
        t.invoke tc.args = Except.error e →
        execToolCalls tools (tc :: rest) = Except.error e) ∧
    (∀ (fs : FileSystem), ∀ t ∈ TOOLS fs, ∀ a : ArgV,
        ∃ s, t.invoke a = Except.ok s) := by
  constructor
  · intro tools tc rest t e hl hi
    simp [execToolCalls, hl, hi, bind, Except.bind]
  · intro fs t ht a
    simp only [TOOLS, List.mem_cons, List.not_mem_nil, or_false] at ht
    rcases ht with h | h | h
    · subst h; exact ⟨_, rfl⟩
    · subst h; exact ⟨_, rfl⟩
    · subst h; exact ⟨_, rfl⟩

/-- C4, witness: the raising tool's error escapes its batch, and the
built-in `search` invoker returns a result rather than raising. -/
theorem c4_tool_failure_witness :
    execToolCalls [boomTool] [tcBoom] = Except.error "RuntimeError: boom" ∧
    ∃ s, searchTool.invoke (ArgV.raw "q") = Except.ok s :=
  ⟨c4_tool_failure_amended.1 [boomTool] tcBoom [] boomTool "RuntimeError: boom" rfl rfl,
   c4_tool_failure_amended.2 emptyFS searchTool (by simp [TOOLS]) (ArgV.raw "q")⟩

/-- C5, confirmed: for every budget B, any model and any tools, a successful
run from step counter 0 ends with the counter — which counts completed
tool-execution rounds, one increment per round — at most B; and whenever the
counter has already reached the budget when a model response arrives, the
run ends right after that response with no tool execution (the log gains
only the Assistant message, even if it requests tool calls). -/
theorem c5_budget_rounds (agent : Agent) (msgs : List Message) (B : Nat) :
    (∀ final : AgentState, runLoop agent ⟨msgs, 0, B⟩ = Except.ok final →
        final.step_count ≤ B) ∧
    (∀ (k : Nat) (msgs2 : List Message), ∃ c tcs,
        runLoop agent ⟨msgs2, B + k, B⟩ =
          Except.ok ⟨msgs2 ++ [Message.ai c tcs], B + k, B⟩) := by
  constructor
  · intro final h
    exact (runLoop_trace agent B ⟨msgs, 0, B⟩ final (by simp) h).2.2 (Nat.zero_le B)
  · intro k msgs2
    exact runLoop_exhausted agent ⟨msgs2, B + k, B⟩ (Nat.le_add_right B k)

/-- C5, witness: the always-tool-calling stub with budget 1 ends with step
counter 1 ≤ 1 after exactly one tool round. -/
theorem c5_budget_rounds_witness :
    (AgentState.mk
      [Message.human "q", Message.ai "" [⟨"t", ArgV.raw "", "i"⟩],
       Message.tool "r" "i", Message.ai "" [⟨"t", ArgV.raw "", "i"⟩]] 1 1).step_count ≤ 1 :=
  (c5_budget_rounds loopAgent [Message.human "q"] 1).1
    ⟨[Message.human "q", Message.ai "" [⟨"t", ArgV.raw "", "i"⟩],
      Message.tool "r" "i", Message.ai "" [⟨"t", ArgV.raw "", "i"⟩]], 1, 1⟩
    ((runLoop_eq_tool loopAgent ⟨[Message.human "q"], 0, 1⟩ rfl rfl).trans
      ((runLoop_eq_end loopAgent
        ⟨[Message.human "q", Message.ai "" [⟨"t", ArgV.raw "", "i"⟩],
          Message.tool "r" "i"], 1, 1⟩ rfl).trans (by rfl)))

/-- C6, confirmed: a completed tool round returns exactly `step_count + 1`
no matter how many tool calls it dispatched, and the model-calling node
returns the step counter unchanged. -/
theorem c6_step_per_round :
    (∀ (tools : List Tool) (state : AgentState) (msgs : List Message) (sc : Nat),
        call_tool tools state = Except.ok (msgs, sc) → sc = state.step_count + 1) ∧
    (∀ (oracle : Oracle) (sp : String) (state : AgentState),
        (generate_response oracle sp state).2 = state.step_count) := by
  constructor
  · intro tools state msgs sc h
    exact call_tool_step_eq h
  · intro oracle sp state
    rfl

/-- C6, witness: a round dispatching three tool calls still returns step
counter 0 + 1. -/
theorem c6_step_per_round_witness :
    (1 : Nat) =
      (AgentState.mk
        [Message.ai "" [⟨"t", ArgV.raw "", "i1"⟩, ⟨"t", ArgV.raw "", "i2"⟩,
                        ⟨"t", ArgV.raw "", "i3"⟩]] 0 10).step_count + 1 :=
  c6_step_per_round.1 [tTool]
    ⟨[Message.ai "" [⟨"t", ArgV.raw "", "i1"⟩, ⟨"t", ArgV.raw "", "i2"⟩,
                     ⟨"t", ArgV.raw "", "i3"⟩]], 0, 10⟩
    [Message.tool "r" "i1", Message.tool "r" "i2", Message.tool "r" "i3"] 1 rfl

/-- C7, confirmed: prompt injection is idempotent — on a log already
containing a System message the injection is the identity — and two
successive runs preserve the number of System messages of the original
history, so a conversation with one System message never ends with two. -/
theorem c7_system_prompt_idempotent :
    (∀ (sp : String) (msgs : List Message), msgs.any Message.isSystem = true →
        injectSystem sp msgs = msgs) ∧
    (∀ (agent : Agent) (input1 input2 : String) (prev : List Message) (B : Nat)
        (r1 r2 : String × List Message),
        run_agent agent input1 prev B = Except.ok r1 →
        run_agent agent input2 r1.2 B = Except.ok r2 →
        countSystem r2.2 = countSystem prev) := by
  constructor
  · intro sp msgs h
    simp [injectSystem, h]
  · intro agent i1 i2 prev B r1 r2 h1 h2
    have e1 := run_agent_system_filter h1
    have e2 := run_agent_system_filter h2
    simp only [countSystem, e2, e1]

/-- C7, witness: two back-to-back runs on a history holding one System
message end with exactly one System message. -/
theorem c7_system_prompt_idempotent_witness :
    injectSystem "prompt" [Message.system "s"] = [Message.system "s"] ∧
    countSystem [Message.system "s", Message.human "a", Message.ai "ok" [],
                 Message.human "b", Message.ai "ok" []] =
      countSystem [Message.system "s"] :=
  ⟨c7_system_prompt_idempotent.1 "prompt" [Message.system "s"] rfl,
   c7_system_prompt_idempotent.2 sysAgent "a" "b" [Message.system "s"] 10
     ("ok", [Message.system "s", Message.human "a", Message.ai "ok" []])
     ("ok", [Message.system "s", Message.human "a", Message.ai "ok" [],
             Message.human "b", Message.ai "ok" []])
     ((run_agent_of_runLoop
        (runLoop_eq_end sysAgent
          ⟨[Message.system "s"] ++ [Message.human "a"], 0, 10⟩ rfl)).trans (by rfl))
     ((run_agent_of_runLoop
        (runLoop_eq_end sysAgent
          ⟨[Message.system "s", Message.human "a", Message.ai "ok" []] ++
            [Message.human "b"], 0, 10⟩ rfl)).trans (by rfl))⟩

/-- C8, confirmed: the round requesting `calculate("1/0")` and `search("x")`
yields exactly two ToolResults — the calculation error text and the normal
mock search output — and the loop proceeds to a further model call that
produces the final answer; moreover `calculate` returns an error string for
every expression whose evaluation raises, never raising itself (its invoker
is total). -/
theorem c8_partial_failure_isolation :
    run_agent partialFailureAgent "What is 1/0?" [] 10 =
      Except.ok ("The calculation failed.",
        [Message.human "What is 1/0?",
         Message.ai ""
           [⟨"calculate", ArgV.arith (Expr.div (Expr.num 1) (Expr.num 0)), "c1"⟩,
            ⟨"search", ArgV.raw "x", "c2"⟩],
         Message.tool (calculate (Expr.div (Expr.num 1) (Expr.num 0))) "c1",
         Message.tool (search "x") "c2",
         Message.ai "The calculation failed." []]) ∧
    calculate (Expr.div (Expr.num 1) (Expr.num 0)) =
      "Error calculating " ++ quote ++ "1/0" ++ quote ++ ": division by zero" ∧
    (∀ (e : Expr) (m : String), evalExpr e = Except.error m →
        calculate e = "Error calculating " ++ quote ++ exprStr e ++ quote ++ ": " ++ m) := by
  refine ⟨?_, by decide, ?_⟩
  · exact run_agent_of_runLoop
      ((runLoop_eq_tool partialFailureAgent
          ⟨[] ++ [Message.human "What is 1/0?"], 0, 10⟩ (by rfl) (by rfl)).trans
       (runLoop_eq_end partialFailureAgent
         ⟨[Message.human "What is 1/0?",
           Message.ai ""
             [⟨"calculate", ArgV.arith (Expr.div (Expr.num 1) (Expr.num 0)), "c1"⟩,
              ⟨"search", ArgV.raw "x", "c2"⟩],
           Message.tool (calculate (Expr.div (Expr.num 1) (Expr.num 0))) "c1",
           Message.tool (search "x") "c2"], 1, 10⟩ rfl))
  · intro e m h
    simp [calculate, h]

/-- C8, witness: an unbound identifier makes `eval` raise a NameError and
`calculate` returns the corresponding error string. -/
theorem c8_partial_failure_isolation_witness :
    calculate (Expr.name "nope") =
      "Error calculating " ++ quote ++ exprStr (Expr.name "nope") ++ quote ++ ": " ++
        ("name " ++ quote ++ "nope" ++ quote ++ " is not defined") :=
  c8_partial_failure_isolation.2.2 (Expr.name "nope")
    ("name " ++ quote ++ "nope" ++ quote ++ " is not defined") rfl

/-- C9, code bug: for a user turn the CLI's `print` receives the entire
(response, messages) pair returned by `run_agent` — the source never
unpacks the tuple — not the bare response string the spec describes. -/
theorem c9_cli_prints_tuple :
    mainPrintArg helloAgent "hi" =
      Except.ok (PrintArg.tup "Hello!" [Message.human "hi", Message.ai "Hello!" []]) ∧
    (∀ s : String, PrintArg.isPair (PrintArg.text s) = false) ∧
    PrintArg.isPair
      (PrintArg.tup "Hello!" [Message.human "hi", Message.ai "Hello!" []]) = true := by
  refine ⟨?_, fun s => rfl, rfl⟩
  simp only [mainPrintArg]
  rw [run_agent_of_runLoop
    (runLoop_eq_end helloAgent ⟨[] ++ [Message.human "hi"], 0, 10⟩ rfl)]
  rfl

/-- C10, confirmed: a run never adds a System message to the conversation it
returns — the injected prompt lives only in the local prompt sent to the
model — so the returned log's System messages are exactly those of the
supplied history. -/
theorem c10_no_system_in_result (agent : Agent) (input : String)
    (prev : List Message) (B : Nat) (r : String × List Message)
    (h : run_agent agent input prev B = Except.ok r) :
    r.2.filter Message.isSystem = prev.filter Message.isSystem :=
  run_agent_system_filter h

/-- C10, witness: the run's returned log keeps exactly the history's System
message. -/
theorem c10_no_system_in_result_witness :
    ([Message.system "s", Message.human "a", Message.ai "ok" []].filter Message.isSystem) =
      ([Message.system "s"].filter Message.isSystem) :=
  c10_no_system_in_result sysAgent "a" [Message.system "s"] 10
    ("ok", [Message.system "s", Message.human "a", Message.ai "ok" []])
    ((run_agent_of_runLoop
      (runLoop_eq_end sysAgent
        ⟨[Message.system "s"] ++ [Message.human "a"], 0, 10⟩ rfl)).trans (by rfl))

end WebAgentic
